import Mathlib

/-! dhcpchecker: the `macsniffer` probe engine

A shallow embedding of `src/macsniffer/macsniffer.go`: the frame template built by
`NewClient`, the send loop `sendDiscover` / `writePacket`, and the receive loop
`readPacket`, followed by the properties of the written specification that were
checked against them.

Conventions of the embedding.
* A Go `byte` is a natural number below 256, a `[]byte` (also `net.IP`,
  `net.HardwareAddr`) a list of them; a nil slice is the empty list.
* A Go run-time panic (index out of range) is the value `none`.
* A channel send is an entry of a trace, in program order.
* The reply counter of `readPacket`, a Go `int`, is an unbounded integer: it grows by
  one per received reply and cannot wrap within a run.
* What the `select` of `readPacket` receives is a list of events, in the order in
  which the `select` takes them: a captured packet, or the firing of the timer.
* Calls into the Go standard library and into gopacket are modelled by the small
  functions of the first section, each with the library behaviour it stands for.
-/

namespace Macsniffer

/-! ## Library values and functions -/

abbrev Bytes := List Nat

def DHCPOpRequest : Nat := 1
def DHCPOpReply : Nat := 2
def DHCPMsgTypeDiscover : Nat := 1
def DHCPMsgTypeOffer : Nat := 2
def DHCPOptMessageType : Nat := 53
def DHCPOptServerID : Nat := 54
def DHCPOptParamsRequest : Nat := 55
def DHCPOptEnd : Nat := 255
def LinkTypeEthernet : Nat := 1
def EthernetTypeIPv4 : Nat := 0x0800
def IPProtocolUDP : Nat := 17

/-- The table `hexDigit` of package `net`: "0123456789abcdef". -/
def hexDigit (n : Nat) : Char := "0123456789abcdef".toList.getD n '0'

/-- Two lower-case hexadecimal digits of one byte. -/
def hexByte (b : Nat) : List Char := [hexDigit (b / 16), hexDigit (b % 16)]

/-- Go `net.HardwareAddr.String`: the bytes in two-digit lower-case hexadecimal,
separated by colons; the empty address gives the empty string. -/
def HardwareAddr.chars : Bytes → List Char
  | [] => []
  | [b] => hexByte b
  | b :: bs => hexByte b ++ ':' :: HardwareAddr.chars bs

def HardwareAddr.String (a : Bytes) : String := String.mk (HardwareAddr.chars a)

/-- Go `net.IP.To4`: a 4-byte address is itself, a 16-byte address that is
IPv4-mapped gives its last four bytes, anything else gives nil. -/
def IP.To4 (ip : Bytes) : Bytes :=
  if ip.length = 4 then ip
  else if ip.length = 16 ∧ ip.take 10 = List.replicate 10 0 ∧ (ip.drop 10).take 2 = [255, 255] then
    ip.drop 12
  else []

/-- Decimal digits of a byte. -/
def decimal (n : Nat) : List Char := Nat.toDigits 10 n

/-- Dotted-decimal text of an address, one decimal number per byte. -/
def dotted : Bytes → List Char
  | [] => []
  | [b] => decimal b
  | b :: bs => decimal b ++ '.' :: dotted bs

/-- The eight 16-bit groups of a 16-byte address. -/
def groups16 : Bytes → List Nat
  | hi :: lo :: rest => (hi * 256 + lo) :: groups16 rest
  | _ => []

/-- Length of the run of zero groups at the head of a list. -/
def zeroRun : List Nat → Nat
  | 0 :: gs => zeroRun gs + 1
  | _ => 0

/-- The first longest run of at least two zero groups, as start and end index,
scanning start indices from `i` on (the first loop of `appendTo6` of `net/netip`). -/
def longestZeroRun : List Nat → Nat → Option (Nat × Nat) → Option (Nat × Nat)
  | [], _, best => best
  | g :: gs, i, best =>
    let l := zeroRun (g :: gs)
    let better : Bool := match best with
      | none => true
      | some (s, e) => decide (l > e - s)
    longestZeroRun gs (i + 1) (if 2 ≤ l ∧ better = true then some (i, i + l) else best)

/-- Lower-case hexadecimal text of a 16-bit group, without leading zeros. -/
def hexGroup (g : Nat) : List Char := Nat.toDigits 16 g

/-- Text of the groups from index `i` on, the run `z` written as "::"
(the second loop of `appendTo6`). -/
def groupsText (gs : List Nat) (z : Option (Nat × Nat)) : Nat → Nat → List Char
  | 0, _ => []
  | fuel + 1, i =>
    if 8 ≤ i then []
    else match z with
      | some (s, e) =>
        if i = s then
          ':' :: ':' :: (if 8 ≤ e then [] else hexGroup (gs.getD e 0) ++ groupsText gs z fuel (e + 1))
        else
          (if 0 < i then [':'] else []) ++ hexGroup (gs.getD i 0) ++ groupsText gs z fuel (i + 1)
      | none =>
        (if 0 < i then [':'] else []) ++ hexGroup (gs.getD i 0) ++ groupsText gs z fuel (i + 1)

/-- Go `net.IP.String`: "<nil>" for the empty slice, "?" and the hexadecimal bytes
for a length other than 4 and 16, dotted decimal for an IPv4 (or IPv4-mapped)
address, and the compressed colon form for any other 16-byte address. -/
def IP.String (ip : Bytes) : String :=
  if ip.length = 0 then "<nil>"
  else if ip.length ≠ 4 ∧ ip.length ≠ 16 then String.mk ('?' :: ip.flatMap hexByte)
  else if (IP.To4 ip).length = 4 then String.mk (dotted (IP.To4 ip))
  else
    let gs := groups16 ip
    String.mk (groupsText gs (longestZeroRun gs 0 none) 9 0)

/-- Go `net.IPv4(a, b, c, d)`: the 16-byte IPv4-mapped form, which is also what
`net.ParseIP` returns for the dotted-decimal text of `a.b.c.d`. -/
def netIPv4 (a b c d : Nat) : Bytes := [0, 0, 0, 0, 0, 0, 0, 0, 0, 0, 255, 255, a, b, c, d]

/-- One hexadecimal digit, as `xtoi` of package `net` reads it. -/
def xtoiDigit (c : Char) : Option Nat :=
  if '0'.toNat ≤ c.toNat ∧ c.toNat ≤ '9'.toNat then some (c.toNat - '0'.toNat)
  else if 'a'.toNat ≤ c.toNat ∧ c.toNat ≤ 'f'.toNat then some (c.toNat - 'a'.toNat + 10)
  else if 'A'.toNat ≤ c.toNat ∧ c.toNat ≤ 'F'.toNat then some (c.toNat - 'A'.toNat + 10)
  else none

/-- Go `xtoi2(s, e)` of package `net`: the first two characters of `s` as one byte;
fails when they are not both hexadecimal digits, or when `s` has a third character
and it is not `e`. -/
def xtoi2 (s : List Char) (e : Char) : Option Nat :=
  match s with
  | c0 :: c1 :: rest =>
    if rest.head? ≠ none ∧ rest.head? ≠ some e then none
    else
      match xtoiDigit c0, xtoiDigit c1 with
      | some a, some b => some (a * 16 + b)
      | _, _ => none
  | _ => none

/-- The first loop of `ParseMAC`: `n` bytes, three characters apart. -/
def parseColon (e : Char) : Nat → List Char → Option Bytes
  | 0, _ => some []
  | n + 1, s =>
    match xtoi2 s e, parseColon e n (s.drop 3) with
    | some b, some bs => some (b :: bs)
    | _, _ => none

/-- The second loop of `ParseMAC`: `k` pairs of bytes, five characters apart. -/
def parseDotted : Nat → List Char → Option Bytes
  | 0, _ => some []
  | k + 1, s =>
    match xtoi2 (s.take 2) (Char.ofNat 0), xtoi2 (s.drop 2) '.', parseDotted k (s.drop 5) with
    | some a, some b, some bs => some (a :: b :: bs)
    | _, _, _ => none

/-- Go `net.ParseMAC`: 6, 8 or 20 bytes written as hexadecimal pairs separated by
colons or by hyphens, or as groups of four hexadecimal digits separated by dots;
`none` is the error result. A text that parses is ASCII, so its length in
characters is its length in bytes. -/
def ParseMAC (str : String) : Option Bytes :=
  let s := str.toList
  if s.length < 14 then none
  else if s[2]? = some ':' ∨ s[2]? = some '-' then
    if (s.length + 1) % 3 ≠ 0 then none
    else
      let n := (s.length + 1) / 3
      if n ≠ 6 ∧ n ≠ 8 ∧ n ≠ 20 then none
      else parseColon (s.getD 2 ':') n s
  else if s[4]? = some '.' then
    if (s.length + 1) % 5 ≠ 0 then none
    else
      let n := 2 * (s.length + 1) / 5
      if n ≠ 6 ∧ n ≠ 8 ∧ n ≠ 20 then none
      else parseDotted (n / 2) s
  else none

/-! ## Data model -/

/-- The gopacket `layers.DHCPOption`; the field `Type` of the source is `Typ`. -/
structure DHCPOption where
  Typ : Nat
  Length : Nat
  Data : Bytes
deriving DecidableEq, Repr

/-- The fields of gopacket `layers.DHCPv4` that the program reads or writes. -/
structure DHCPv4 where
  Operation : Nat
  HardwareType : Nat
  Xid : Nat
  Flags : Nat
  ClientIP : Bytes
  YourClientIP : Bytes
  ClientHWAddr : Bytes
  Options : List DHCPOption
deriving DecidableEq, Repr

/-- The record `SingleTest` of the source. -/
structure SingleTest where
  SrcMac : String
  OfferedIp : String
  DhcpServer : String
deriving DecidableEq, Repr

/-- A captured packet as `readPacket` sees it: the result of
`packet.Layer(layers.LayerTypeDHCPv4)`, `none` when the packet has no such layer. -/
structure Packet where
  dhcp4layer : Option DHCPv4
deriving DecidableEq, Repr

/-- What one turn of the `select` in `readPacket` receives. -/
inductive Event where
  | packet (p : Packet)
  | deadline
deriving DecidableEq, Repr

/-- A value sent on one of the three channels of `readPacket`. -/
inductive Send where
  | testChan (t : SingleTest)
  | status (v : Int)
  | endChan (v : Int)
deriving DecidableEq, Repr

/-- How a run of `readPacket` stands after the events given to it: it returned,
it panicked, or it is blocked in the `select` with no event left. -/
inductive Outcome where
  | returned
  | panicked
  | waiting
deriving DecidableEq, Repr

structure Run where
  sends : List Send
  receivedDhcpPacket : Int
  outcome : Outcome
deriving DecidableEq, Repr

/-! ## The receive loop -/

/-- Lines 212-224 of `readPacket`, for a reply: the records sent on `testChan`.
`dhcp4.Options[0].Data[0]` and `dhcp4.Options[1]` are unchecked index expressions,
so each can panic; the record is built before it is sent, so a panic sends nothing. -/
def offerRecords (dhcp4 : DHCPv4) : Option (List SingleTest) :=
  let mtype := DHCPMsgTypeOffer
  match dhcp4.Options[0]? with
  | none => none
  | some o0 =>
    match o0.Data[0]? with
    | none => none
    | some b =>
      if b = mtype then
        match dhcp4.Options[1]? with
        | none => none
        | some o1 =>
          some [{ SrcMac := HardwareAddr.String dhcp4.ClientHWAddr,
                  OfferedIp := IP.String dhcp4.YourClientIP,
                  DhcpServer := IP.String o1.Data }]
      else some []

/-- Lines 206-236 of `readPacket`: one received packet. The result is the sends, the
counter afterwards and whether the function returned; `none` is a panic. -/
def onPacket (requestsNumber receivedDhcpPacket : Int) (packet : Packet) :
    Option (List Send × Int × Bool) :=
  match packet.dhcp4layer with
  | none => some ([], receivedDhcpPacket, false)
  | some dhcp4 =>
    let afterReply : Option (List Send × Int) :=
      if dhcp4.Operation = DHCPOpReply then
        match offerRecords dhcp4 with
        | none => none
        | some recs => some (recs.map Send.testChan, receivedDhcpPacket + 1)
      else some ([], receivedDhcpPacket)
    match afterReply with
    | none => none
    | some (sent, received) =>
      if received = requestsNumber then
        some (sent ++ [Send.status 0, Send.endChan 1], received, true)
      else some (sent, received, false)

/-- The `for`/`select` loop of `readPacket` from a given counter value. -/
def readPacketLoop (requestsNumber : Int) : Int → List Event → Run
  | received, [] => { sends := [], receivedDhcpPacket := received, outcome := .waiting }
  | received, .deadline :: _ =>
    { sends := [Send.status 1, Send.endChan 1], receivedDhcpPacket := received,
      outcome := .returned }
  | received, .packet p :: rest =>
    match onPacket requestsNumber received p with
    | none => { sends := [], receivedDhcpPacket := received, outcome := .panicked }
    | some (sent, received', true) =>
      { sends := sent, receivedDhcpPacket := received', outcome := .returned }
    | some (sent, received', false) =>
      let r := readPacketLoop requestsNumber received' rest
      { r with sends := sent ++ r.sends }

/-- The method `Client.readPacket` (its receiver is not used): the counter starts at 0. -/
def readPacket (requestsNumber : Int) (events : List Event) : Run :=
  readPacketLoop requestsNumber 0 events

/-- The records among the sends of a trace, in order. -/
def records : List Send → List SingleTest
  | [] => []
  | .testChan t :: s => t :: records s
  | _ :: s => records s

/-- The values sent on the status channel, in order. -/
def statuses : List Send → List Int
  | [] => []
  | .status v :: s => v :: statuses s
  | _ :: s => statuses s

/-! ## The frame template and the send loop -/

/-- The fields of gopacket `layers.Ethernet` that the program sets. -/
structure Ethernet where
  SrcMAC : Bytes
  DstMAC : Bytes
  EthernetType : Nat
deriving DecidableEq, Repr

/-- The fields of gopacket `layers.IPv4` that the program sets. -/
structure IPv4 where
  Version : Nat
  Protocol : Nat
  TTL : Nat
  SrcIP : Bytes
  DstIP : Bytes
deriving DecidableEq, Repr

/-- The ports of gopacket `layers.UDP`. Its `Length` and `Checksum`, which `NewClient`
sets to 0, are recomputed by the serializer (`FixLengths`, `ComputeChecksums`) and
are not part of the model. -/
structure UDP where
  SrcPort : Nat
  DstPort : Nat
deriving DecidableEq, Repr

structure SerializeOptions where
  FixLengths : Bool
  ComputeChecksums : Bool
deriving DecidableEq, Repr

/-- The struct `Client` of the source, without the capture handle (see `writePacket`)
and without `lease`, `t1`, `t2`, which no code reads or writes. -/
structure Client where
  HW : Bytes
  PeerHw : Bytes
  IP : Bytes
  IFName : String
  ethLayer : Ethernet
  ipLayer : IPv4
  udpLayer : UDP
  dhcpLayer : DHCPv4
  opts : SerializeOptions
  macs : List String
deriving DecidableEq, Repr

/-- The `options` byte slice of `NewClient`, lines 87-117, in source order. -/
def NewClient.options : Bytes :=
  [1, 2, 3, 4, 5, 6, 7, 8, 9, 10, 11, 12, 13, 14, 15, 16, 17, 18, 19,
   51, 52, 53, 54, 55, 56, 60, 61, 67, 66]

/-- The function `NewClient`. Besides its three arguments it is given the two things
it takes from its environment: `xid`, the value of `rand.Int31()`, and `openErr`, the
error of `pcap.OpenLive` (`none` when the handle opens). -/
def NewClient (macsToCheck : List String) (ifname hostname : String) (xid : Nat)
    (openErr : Option String) : Except String Client :=
  let _ := hostname
  let srcIP := netIPv4 0 0 0 0
  let eth : Ethernet :=
    { SrcMAC := [],
      DstMAC := (ParseMAC "ff:ff:ff:ff:ff:ff").getD [],
      EthernetType := EthernetTypeIPv4 }
  let ip : IPv4 :=
    { Version := 4, Protocol := IPProtocolUDP, TTL := 64,
      SrcIP := srcIP, DstIP := netIPv4 255 255 255 255 }
  let udp : UDP := { SrcPort := 68, DstPort := 67 }
  let options := NewClient.options
  let dhcp4Opts : List DHCPOption :=
    [ { Typ := DHCPOptMessageType, Length := 1, Data := [DHCPMsgTypeDiscover] },
      { Typ := DHCPOptParamsRequest, Length := options.length % 256, Data := options },
      { Typ := DHCPOptEnd, Length := 0, Data := [] } ]
  let dhcp4 : DHCPv4 :=
    { Operation := DHCPOpRequest, HardwareType := LinkTypeEthernet, Xid := xid % 2 ^ 32,
      Flags := 0, ClientIP := netIPv4 0 0 0 0, YourClientIP := [], ClientHWAddr := [],
      Options := dhcp4Opts }
  match openErr with
  | some err => .error err
  | none =>
    .ok { HW := [], PeerHw := [], IP := srcIP, IFName := ifname,
          ethLayer := eth, ipLayer := ip, udpLayer := udp, dhcpLayer := dhcp4,
          opts := { FixLengths := true, ComputeChecksums := true },
          macs := macsToCheck }

/-- The buffer that `gopacket.SerializeLayers` fills, kept as the four layers it
encodes (the byte encoding itself is not modelled). -/
structure Frame where
  eth : Ethernet
  ip : IPv4
  udp : UDP
  dhcp : DHCPv4
deriving DecidableEq, Repr

/-- The call `gopacket.SerializeLayers(buff, c.opts, eth, ip, udp, dhcp)`: gopacket
refuses an Ethernet layer whose source or destination address is not 6 bytes long and
an IPv4 layer whose source or destination is not an IPv4 address. -/
def SerializeLayers (eth : Ethernet) (ip : IPv4) (udp : UDP) (dhcp : DHCPv4) :
    Except String Frame :=
  if (IP.To4 ip.SrcIP).length ≠ 4 ∨ (IP.To4 ip.DstIP).length ≠ 4 then
    .error "invalid (non-IPv4) address"
  else if eth.DstMAC.length ≠ 6 then .error "invalid dst MAC"
  else if eth.SrcMAC.length ≠ 6 then .error "invalid src MAC"
  else .ok { eth := eth, ip := ip, udp := udp, dhcp := dhcp }

/-- One call of `WritePacketData` on the write handle: the buffer and the error it
gave (`none` when the write succeeded). -/
structure Write where
  buf : Frame
  err : Option String
deriving DecidableEq, Repr

/-- The method `writePacket`: the error of `WritePacketData`, handed back. The handle
is outside the program, so the result of its `k`-th call is given by `writeErr k`. -/
def writePacket (writeErr : Nat → Option String) (k : Nat) (buf : Frame) :
    Write × Option String :=
  match writeErr k with
  | some err => ({ buf := buf, err := some err }, some err)
  | none => ({ buf := buf, err := none }, none)

/-- How `sendDiscover` ended: it returned an error or nil, or it panicked. -/
inductive SendOutcome where
  | returned (err : Option String)
  | panicked
deriving DecidableEq, Repr

structure SendRun where
  client : Client
  writes : List Write
  outcome : SendOutcome
deriving DecidableEq, Repr

/-- Lines 255-260 of `sendDiscover`: the assignments to the shared layers for one
address. The errors of `ParseMAC` are dropped, leaving nil addresses; the index
expression `dhcp4Opts[0]` panics (`none`) on an empty option list. -/
def setAddress (c : Client) (mac : String) : Option Client :=
  let srcMAC := (ParseMAC mac).getD []
  let clientHWAddr := (ParseMAC mac).getD []
  match c.dhcpLayer.Options with
  | [] => none
  | o :: os =>
    some { c with
      ethLayer := { c.ethLayer with SrcMAC := srcMAC },
      dhcpLayer := { c.dhcpLayer with
        ClientHWAddr := clientHWAddr,
        Options := { o with Data := [DHCPMsgTypeDiscover] } :: os } }

/-- The `for _, mac := range c.macs` loop of `sendDiscover` over the addresses still
to do, `ws` being the writes made so far. `SetNetworkLayerForChecksum` is given an
IPv4 layer and so returns nil; the result of `writePacket` is not looked at. -/
def sendDiscoverLoop (writeErr : Nat → Option String) : Client → List String → List Write → SendRun
  | c, [], ws => { client := c, writes := ws, outcome := .returned none }
  | c, mac :: rest, ws =>
    match setAddress c mac with
    | none => { client := c, writes := ws, outcome := .panicked }
    | some c1 =>
      match SerializeLayers c1.ethLayer c1.ipLayer c1.udpLayer c1.dhcpLayer with
      | .error err => { client := c1, writes := ws, outcome := .returned (some err) }
      | .ok buf =>
        let w := writePacket writeErr ws.length buf
        sendDiscoverLoop writeErr c1 rest (ws ++ [w.1])

/-- The method `sendDiscover`. -/
def sendDiscover (writeErr : Nat → Option String) (c : Client) : SendRun :=
  sendDiscoverLoop writeErr c c.macs []

/-- Line 180 of `Start`: the receive loop is started with `len(c.macs)` as the
number of requests. -/
def Start_readPacket (c : Client) (events : List Event) : Run :=
  readPacket (c.macs.length : Int) events

/-! ## Reading aids for the statements -/

/-- The DHCP layer of a packet when the packet is a reply-direction DHCP frame. -/
def replyOf (p : Packet) : Option DHCPv4 :=
  match p.dhcp4layer with
  | some d => if d.Operation = DHCPOpReply then some d else none
  | none => none

/-- The reply-direction DHCP frames of a sequence of packets, in order. -/
def replies (frames : List Packet) : List DHCPv4 := frames.filterMap replyOf

/-- The byte that `readPacket` compares with Offer: `Options[0].Data[0]`, when both
index expressions are in range. -/
def firstOptionByte (d : DHCPv4) : Option Nat :=
  match d.Options[0]? with
  | some o0 => o0.Data[0]?
  | none => none

/-- The message type of a DHCP message in the words of the specification: the value
carried by its MessageType option (code 53), wherever that option stands. -/
def specMessageType (d : DHCPv4) : Option Nat :=
  match d.Options.find? (fun o => o.Typ = DHCPOptMessageType) with
  | some o => o.Data[0]?
  | none => none

/-- The server identifier of a DHCP message in the words of the specification: the
data of its option with code 54, wherever that option stands. -/
def specServerID (d : DHCPv4) : Option Bytes :=
  match d.Options.find? (fun o => o.Typ = DHCPOptServerID) with
  | some o => some o.Data
  | none => none

/-- An Offer in the words of the specification: a reply whose MessageType option
carries Offer (2). -/
def specIsOffer (d : DHCPv4) : Prop :=
  d.Operation = DHCPOpReply ∧ specMessageType d = some DHCPMsgTypeOffer

instance (d : DHCPv4) : Decidable (specIsOffer d) := by
  unfold specIsOffer; infer_instance

/-- An Offer laid out the way `readPacket` reads it: the MessageType option, carrying
Offer, stands first and a further option follows it. -/
def offerFirst (d : DHCPv4) : Prop :=
  specIsOffer d ∧ (d.Options[0]?).map (fun o => o.Typ) = some DHCPOptMessageType ∧
    2 ≤ d.Options.length

instance (d : DHCPv4) : Decidable (offerFirst d) := by
  unfold offerFirst; infer_instance

/-- The records that `readPacket` sends for a list of replies, in order. -/
def offered : List DHCPv4 → List SingleTest
  | [] => []
  | d :: ds => (offerRecords d).getD [] ++ offered ds

/-- The record that `readPacket` builds from a reply and its second option. -/
def recordOf (d : DHCPv4) (o1 : DHCPOption) : SingleTest :=
  { SrcMac := HardwareAddr.String d.ClientHWAddr,
    OfferedIp := IP.String d.YourClientIP,
    DhcpServer := IP.String o1.Data }

/-- The packets among the events of a run, in order. -/
def eventPackets : List Event → List Packet
  | [] => []
  | .packet p :: es => p :: eventPackets es
  | .deadline :: es => eventPackets es

/-- The frame that one turn of the `sendDiscover` loop serializes for an address,
starting from the layers of `c`; `none` when the turn panics or the serializer
refuses the layers. -/
def frameFor (c : Client) (mac : String) : Option Frame :=
  match setAddress c mac with
  | none => none
  | some c1 =>
    match SerializeLayers c1.ethLayer c1.ipLayer c1.udpLayer c1.dhcpLayer with
    | .ok buf => some buf
    | .error _ => none

/-! ## Sample frames -/

def macA : Bytes := [170, 170, 170, 170, 170, 170]
def macB : Bytes := [187, 187, 187, 187, 187, 187]
def macC : Bytes := [204, 204, 204, 204, 204, 204]

/-- A reply with the given client hardware address and options, offering
192.168.1.50. -/
def sampleReply (chaddr : Bytes) (options : List DHCPOption) : DHCPv4 :=
  { Operation := DHCPOpReply, HardwareType := LinkTypeEthernet, Xid := 7, Flags := 0,
    ClientIP := [0, 0, 0, 0], YourClientIP := [192, 168, 1, 50], ClientHWAddr := chaddr,
    Options := options }

/-- An Offer from server 192.168.1.1 with the message type first and the server
identifier second. -/
def sampleOffer (chaddr : Bytes) : DHCPv4 :=
  sampleReply chaddr
    [ { Typ := 53, Length := 1, Data := [2] },
      { Typ := 54, Length := 4, Data := [192, 168, 1, 1] },
      { Typ := 51, Length := 4, Data := [0, 0, 14, 16] } ]

/-- The same Offer with the server identifier before the message type. -/
def sampleOfferServerFirst (chaddr : Bytes) : DHCPv4 :=
  sampleReply chaddr
    [ { Typ := 54, Length := 4, Data := [192, 168, 1, 1] },
      { Typ := 53, Length := 1, Data := [2] },
      { Typ := 51, Length := 4, Data := [0, 0, 14, 16] } ]

/-- The same Offer with the lease time between message type and server identifier. -/
def sampleOfferLeaseSecond (chaddr : Bytes) : DHCPv4 :=
  sampleReply chaddr
    [ { Typ := 53, Length := 1, Data := [2] },
      { Typ := 51, Length := 4, Data := [0, 0, 14, 16] },
      { Typ := 54, Length := 4, Data := [192, 168, 1, 1] } ]

/-- A Nak (message type 6) from server 192.168.1.1. -/
def sampleNak (chaddr : Bytes) : DHCPv4 :=
  sampleReply chaddr
    [ { Typ := 53, Length := 1, Data := [6] },
      { Typ := 54, Length := 4, Data := [192, 168, 1, 1] } ]

/-- An Ack (message type 5) from server 2.0.0.1, the server identifier first. -/
def sampleAckServerFirst (chaddr : Bytes) : DHCPv4 :=
  sampleReply chaddr
    [ { Typ := 54, Length := 4, Data := [2, 0, 0, 1] },
      { Typ := 53, Length := 1, Data := [5] } ]

/-- A reply without any option. -/
def sampleNoOptions (chaddr : Bytes) : DHCPv4 := sampleReply chaddr []

/-- A reply whose first option is a Pad, which carries no data. -/
def samplePadFirst (chaddr : Bytes) : DHCPv4 :=
  sampleReply chaddr
    [ { Typ := 0, Length := 0, Data := [] },
      { Typ := 53, Length := 1, Data := [2] },
      { Typ := 54, Length := 4, Data := [192, 168, 1, 1] } ]

/-- An Offer whose only option is the message type. -/
def sampleOfferAlone (chaddr : Bytes) : DHCPv4 :=
  sampleReply chaddr [ { Typ := 53, Length := 1, Data := [2] } ]

/-- A Discover, as the program itself sends it. -/
def sampleDiscover (chaddr : Bytes) : DHCPv4 :=
  { Operation := DHCPOpRequest, HardwareType := LinkTypeEthernet, Xid := 7, Flags := 0,
    ClientIP := [0, 0, 0, 0], YourClientIP := [0, 0, 0, 0], ClientHWAddr := chaddr,
    Options := [ { Typ := 53, Length := 1, Data := [1] } ] }

/-- A packet carrying the given DHCP layer. -/
def dhcpPacket (d : DHCPv4) : Packet := { dhcp4layer := some d }

/-- A packet without a DHCP layer. -/
def otherPacket : Packet := { dhcp4layer := none }

/-- The client that `NewClient` builds for two addresses on interface eth0 when the
random transaction id is 7. -/
def sampleClient : Client :=
  { HW := [], PeerHw := [], IP := netIPv4 0 0 0 0, IFName := "eth0",
    ethLayer := { SrcMAC := [], DstMAC := [255, 255, 255, 255, 255, 255],
                  EthernetType := 0x0800 },
    ipLayer := { Version := 4, Protocol := 17, TTL := 64,
                 SrcIP := netIPv4 0 0 0 0, DstIP := netIPv4 255 255 255 255 },
    udpLayer := { SrcPort := 68, DstPort := 67 },
    dhcpLayer := { Operation := 1, HardwareType := 1, Xid := 7, Flags := 0,
                   ClientIP := netIPv4 0 0 0 0, YourClientIP := [], ClientHWAddr := [],
                   Options :=
                     [ { Typ := 53, Length := 1, Data := [1] },
                       { Typ := 55, Length := 29, Data := NewClient.options },
                       { Typ := 255, Length := 0, Data := [] } ] },
    opts := { FixLengths := true, ComputeChecksums := true },
    macs := ["aa:aa:aa:aa:aa:aa", "bb:bb:bb:bb:bb:bb"] }

/-- The frame that `sendDiscover` builds from `sampleClient` for an address. -/
def sampleFrame (addr : Bytes) : Frame :=
  { eth := { sampleClient.ethLayer with SrcMAC := addr },
    ip := sampleClient.ipLayer,
    udp := sampleClient.udpLayer,
    dhcp := { sampleClient.dhcpLayer with ClientHWAddr := addr } }

/-! ## Lemmas on the receive loop -/

theorem onPacket_noLayer (N c : Int) (p : Packet) (h : p.dhcp4layer = none) :
    onPacket N c p = some ([], c, false) := by
  simp [onPacket, h]

theorem onPacket_notReply (N c : Int) (p : Packet) (d : DHCPv4) (h : p.dhcp4layer = some d)
    (hop : d.Operation ≠ DHCPOpReply) :
    onPacket N c p =
      if c = N then some ([Send.status 0, Send.endChan 1], c, true) else some ([], c, false) := by
  simp [onPacket, h, hop]

theorem onPacket_reply (N c : Int) (p : Packet) (d : DHCPv4) (h : p.dhcp4layer = some d)
    (hop : d.Operation = DHCPOpReply) :
    onPacket N c p =
      match offerRecords d with
      | none => none
      | some recs =>
        if c + 1 = N then
          some (recs.map Send.testChan ++ [Send.status 0, Send.endChan 1], c + 1, true)
        else some (recs.map Send.testChan, c + 1, false) := by
  simp only [onPacket, h, hop, if_true]
  cases offerRecords d <;> simp

theorem replyOf_eq_some {p : Packet} {d : DHCPv4} :
    replyOf p = some d ↔ p.dhcp4layer = some d ∧ d.Operation = DHCPOpReply := by
  unfold replyOf
  cases hp : p.dhcp4layer with
  | none => simp
  | some e =>
    by_cases he : e.Operation = DHCPOpReply
    · simp only [he, if_true, Option.some.injEq]
      constructor
      · intro h; subst h; exact ⟨rfl, he⟩
      · intro h; exact h.1
    · simp only [he, if_false, Option.some.injEq]
      constructor
      · intro h; cases h
      · intro h; rw [h.1] at he; exact absurd h.2 he

theorem replyOf_eq_none {p : Packet} :
    replyOf p = none ↔ ∀ d, p.dhcp4layer = some d → d.Operation ≠ DHCPOpReply := by
  unfold replyOf
  cases hp : p.dhcp4layer with
  | none => simp
  | some e =>
    by_cases he : e.Operation = DHCPOpReply
    · simp [he]
    · simp [he]

theorem records_append (a b : List Send) : records (a ++ b) = records a ++ records b := by
  induction a with
  | nil => rfl
  | cons x xs ih => cases x <;> simp [records, ih]

theorem statuses_append (a b : List Send) : statuses (a ++ b) = statuses a ++ statuses b := by
  induction a with
  | nil => rfl
  | cons x xs ih => cases x <;> simp [statuses, ih]

theorem records_map_testChan (l : List SingleTest) : records (l.map Send.testChan) = l := by
  induction l with
  | nil => rfl
  | cons x xs ih => simp [records, ih]

theorem statuses_map_testChan (l : List SingleTest) : statuses (l.map Send.testChan) = [] := by
  induction l with
  | nil => rfl
  | cons x xs ih => simp [statuses, ih]

theorem replies_cons (p : Packet) (ps : List Packet) :
    replies (p :: ps) = (match replyOf p with | some d => d :: replies ps | none => replies ps) := by
  unfold replies
  cases h : replyOf p <;> simp [List.filterMap_cons, h]

theorem readPacketLoop_continue (N c c' : Int) (p : Packet) (rest : List Event)
    (sent : List Send) (h : onPacket N c p = some (sent, c', false)) :
    readPacketLoop N c (Event.packet p :: rest) =
      { sends := sent ++ (readPacketLoop N c' rest).sends,
        receivedDhcpPacket := (readPacketLoop N c' rest).receivedDhcpPacket,
        outcome := (readPacketLoop N c' rest).outcome } := by
  rw [readPacketLoop, h]

theorem readPacketLoop_return (N c c' : Int) (p : Packet) (rest : List Event)
    (sent : List Send) (h : onPacket N c p = some (sent, c', true)) :
    readPacketLoop N c (Event.packet p :: rest) =
      { sends := sent, receivedDhcpPacket := c', outcome := .returned } := by
  rw [readPacketLoop, h]

theorem readPacketLoop_panic (N c : Int) (p : Packet) (rest : List Event)
    (h : onPacket N c p = none) :
    readPacketLoop N c (Event.packet p :: rest) =
      { sends := [], receivedDhcpPacket := c, outcome := .panicked } := by
  rw [readPacketLoop, h]

/-- While fewer than `N` replies have come in, the loop takes the packets one after
the other, sends the records of the replies and goes on with what follows. -/
theorem readPacketLoop_below (N : Int) :
    ∀ (frames : List Packet) (c : Int) (tail : List Event),
      (∀ d ∈ replies frames, offerRecords d ≠ none) →
      c + (replies frames).length < N →
      readPacketLoop N c (frames.map Event.packet ++ tail) =
        { readPacketLoop N (c + (replies frames).length) tail with
          sends := (offered (replies frames)).map Send.testChan ++
            (readPacketLoop N (c + (replies frames).length) tail).sends } := by
  intro frames
  induction frames with
  | nil => intro c tail _ _; simp [replies, offered]
  | cons p ps ih =>
    intro c tail hsafe hlt
    rw [replies_cons] at hsafe hlt ⊢
    cases hr : replyOf p with
    | none =>
      rw [hr] at hsafe hlt
      simp only at hsafe hlt ⊢
      have hc : c ≠ N := by omega
      have hstep : onPacket N c p = some ([], c, false) := by
        cases hp : p.dhcp4layer with
        | none => exact onPacket_noLayer N c p hp
        | some d =>
          rw [onPacket_notReply N c p d hp (replyOf_eq_none.mp hr d hp), if_neg hc]
      rw [List.map_cons, List.cons_append, readPacketLoop_continue N c c p _ [] hstep,
        ih c tail hsafe hlt]
      simp
    | some d =>
      rw [hr] at hsafe hlt
      simp only [List.length_cons, Nat.cast_add, Nat.cast_one] at hsafe hlt ⊢
      obtain ⟨hp, hop⟩ := replyOf_eq_some.mp hr
      have hd : offerRecords d ≠ none := hsafe d (List.mem_cons_self _ _)
      obtain ⟨recs, hrecs⟩ := Option.ne_none_iff_exists'.mp hd
      have hc : ¬ c + 1 = N := by omega
      have hstep : onPacket N c p = some (recs.map Send.testChan, c + 1, false) := by
        rw [onPacket_reply N c p d hp hop, hrecs]; simp [hc]
      have hlt2 : c + 1 + ((replies ps).length : Int) < N := by omega
      rw [List.map_cons, List.cons_append, readPacketLoop_continue N c (c + 1) p _ _ hstep,
        ih (c + 1) tail (fun e he => hsafe e (List.mem_cons_of_mem _ he)) hlt2]
      have e1 : c + 1 + ((replies ps).length : Int) = c + (((replies ps).length : Int) + 1) := by
        omega
      simp [offered, hrecs, e1]

/-- When the replies of the packets bring the counter to exactly `N`, the loop
returns at the last of them with status 0, having sent the records of all of them. -/
theorem readPacketLoop_complete (N : Int) :
    ∀ (frames : List Packet) (c : Int) (tail : List Event),
      (∀ d ∈ replies frames, offerRecords d ≠ none) →
      c < N → c + (replies frames).length = N →
      readPacketLoop N c (frames.map Event.packet ++ tail) =
        { sends := (offered (replies frames)).map Send.testChan ++
            [Send.status 0, Send.endChan 1],
          receivedDhcpPacket := N, outcome := .returned } := by
  intro frames
  induction frames with
  | nil => intro c tail _ h1 h2; simp [replies] at h2; omega
  | cons p ps ih =>
    intro c tail hsafe hlt heq
    rw [replies_cons] at hsafe heq ⊢
    cases hr : replyOf p with
    | none =>
      rw [hr] at hsafe heq
      simp only at hsafe heq ⊢
      have hc : c ≠ N := by omega
      have hstep : onPacket N c p = some ([], c, false) := by
        cases hp : p.dhcp4layer with
        | none => exact onPacket_noLayer N c p hp
        | some d =>
          rw [onPacket_notReply N c p d hp (replyOf_eq_none.mp hr d hp), if_neg hc]
      rw [List.map_cons, List.cons_append, readPacketLoop_continue N c c p _ [] hstep,
        ih c tail hsafe hlt heq]
      simp
    | some d =>
      rw [hr] at hsafe heq
      simp only [List.length_cons, Nat.cast_add, Nat.cast_one] at hsafe heq ⊢
      obtain ⟨hp, hop⟩ := replyOf_eq_some.mp hr
      have hd : offerRecords d ≠ none := hsafe d (List.mem_cons_self _ _)
      obtain ⟨recs, hrecs⟩ := Option.ne_none_iff_exists'.mp hd
      by_cases hc : c + 1 = N
      · have hnil : replies ps = [] := by
          have : ((replies ps).length : Int) = 0 := by omega
          exact List.length_eq_zero.mp (by exact_mod_cast this)
        have hstep : onPacket N c p =
            some (recs.map Send.testChan ++ [Send.status 0, Send.endChan 1], c + 1, true) := by
          rw [onPacket_reply N c p d hp hop, hrecs]; simp [hc]
        rw [List.map_cons, List.cons_append, readPacketLoop_return N c (c + 1) p _ _ hstep]
        simp [offered, hrecs, hnil, hc]
      · have hstep : onPacket N c p = some (recs.map Send.testChan, c + 1, false) := by
          rw [onPacket_reply N c p d hp hop, hrecs]; simp [hc]
        have hlt2 : c + 1 < N := by
          have : (0 : Int) ≤ ((replies ps).length : Int) := Int.natCast_nonneg _
          omega
        rw [List.map_cons, List.cons_append, readPacketLoop_continue N c (c + 1) p _ _ hstep,
          ih (c + 1) tail (fun e he => hsafe e (List.mem_cons_of_mem _ he)) hlt2 (by omega)]
        simp [offered, hrecs]

theorem offerRecords_eq_some {d : DHCPv4} {recs : List SingleTest}
    (h : offerRecords d = some recs) :
    (firstOptionByte d ≠ none ∧ firstOptionByte d ≠ some DHCPMsgTypeOffer ∧ recs = []) ∨
    (firstOptionByte d = some DHCPMsgTypeOffer ∧
      ∃ o1, d.Options[1]? = some o1 ∧ recs = [recordOf d o1]) := by
  unfold offerRecords at h
  unfold firstOptionByte
  cases h0 : d.Options[0]? with
  | none => simp [h0] at h
  | some o0 =>
    simp only [h0] at h ⊢
    cases hb : o0.Data[0]? with
    | none => simp [hb] at h
    | some b =>
      simp only [hb] at h ⊢
      by_cases hm : b = DHCPMsgTypeOffer
      · right
        simp only [hm, if_true] at h
        cases h1 : d.Options[1]? with
        | none => simp [h1] at h
        | some o1 =>
          simp only [h1, Option.some.injEq] at h
          exact ⟨by rw [hm], o1, rfl, by rw [← h]; rfl⟩
      · left
        simp only [hm, if_false, Option.some.injEq] at h
        exact ⟨by simp, by simpa using hm, h.symm⟩

theorem offerRecords_length_le {d : DHCPv4} {recs : List SingleTest}
    (h : offerRecords d = some recs) : recs.length ≤ 1 := by
  rcases offerRecords_eq_some h with ⟨_, _, h1⟩ | ⟨_, o1, _, h1⟩ <;> simp [h1]

/-- What one packet can do: it either leaves the counter alone and sends no record,
or it is a reply that adds one to the counter and sends its records; when the
function returns, with status 0, the counter equals `N`, and after a reply it goes
on only with a counter other than `N`. -/
theorem onPacket_eq_some {N c c' : Int} {p : Packet} {sent : List Send} {done : Bool}
    (h : onPacket N c p = some (sent, c', done)) :
    ∃ recs : List SingleTest,
      sent = recs.map Send.testChan ++
        (if done = true then [Send.status 0, Send.endChan 1] else []) ∧
      (done = true → c' = N) ∧
      (done = false → replyOf p ≠ none → c' ≠ N) ∧
      ((c' = c ∧ recs = [] ∧ replyOf p = none) ∨
        (c' = c + 1 ∧ ∃ d, replyOf p = some d ∧ offerRecords d = some recs)) := by
  cases hp : p.dhcp4layer with
  | none =>
    have hr : replyOf p = none := replyOf_eq_none.mpr (fun d hd => by rw [hp] at hd; cases hd)
    rw [onPacket_noLayer N c p hp] at h
    simp only [Option.some.injEq, Prod.mk.injEq] at h
    obtain ⟨h1, h2, h3⟩ := h
    subst h1 h2 h3
    exact ⟨[], by simp, by simp, by simp [hr], Or.inl ⟨rfl, rfl, hr⟩⟩
  | some d =>
    by_cases hop : d.Operation = DHCPOpReply
    · have hr : replyOf p = some d := replyOf_eq_some.mpr ⟨hp, hop⟩
      rw [onPacket_reply N c p d hp hop] at h
      cases hrec : offerRecords d with
      | none => simp [hrec] at h
      | some recs =>
        simp only [hrec] at h
        by_cases hc : c + 1 = N
        · simp only [hc, if_true, Option.some.injEq, Prod.mk.injEq] at h
          obtain ⟨h1, h2, h3⟩ := h
          subst h1 h3
          refine ⟨recs, by simp, fun _ => h2.symm, by simp, Or.inr ⟨?_, d, hr, hrec⟩⟩
          omega
        · simp only [hc, if_false, Option.some.injEq, Prod.mk.injEq] at h
          obtain ⟨h1, h2, h3⟩ := h
          subst h1 h2 h3
          exact ⟨recs, by simp, by simp, fun _ _ => hc, Or.inr ⟨rfl, d, hr, hrec⟩⟩
    · have hr : replyOf p = none :=
        replyOf_eq_none.mpr (fun e he => by rw [hp] at he; cases he; exact hop)
      rw [onPacket_notReply N c p d hp hop] at h
      by_cases hc : c = N
      · simp only [hc, if_true, Option.some.injEq, Prod.mk.injEq] at h
        obtain ⟨h1, h2, h3⟩ := h
        subst h1 h3
        exact ⟨[], by simp, fun _ => h2.symm, by simp, Or.inl ⟨by omega, rfl, hr⟩⟩
      · simp only [hc, if_false, Option.some.injEq, Prod.mk.injEq] at h
        obtain ⟨h1, h2, h3⟩ := h
        subst h1 h2 h3
        exact ⟨[], by simp, by simp, by simp [hr], Or.inl ⟨rfl, rfl, hr⟩⟩

/-- The shape of every run of the loop, whatever the events: the sends are records
followed, when the function returned, by one status value and the end signal; status
0 comes with a counter equal to `N`; the counter grows by at least the number of
records; it does not pass `N` when it starts below `N`; and every record was built
from a reply among the packets. -/
theorem readPacketLoop_shape (N : Int) :
    ∀ (evs : List Event) (c : Int),
      ∃ (recs : List SingleTest) (fin : List Send),
        (readPacketLoop N c evs).sends = recs.map Send.testChan ++ fin ∧
        (((readPacketLoop N c evs).outcome = .returned ∧
            ((fin = [Send.status 0, Send.endChan 1] ∧
                (readPacketLoop N c evs).receivedDhcpPacket = N) ∨
              fin = [Send.status 1, Send.endChan 1])) ∨
          ((readPacketLoop N c evs).outcome ≠ .returned ∧ fin = [])) ∧
        (recs.length : Int) ≤ (readPacketLoop N c evs).receivedDhcpPacket - c ∧
        (c < N → (readPacketLoop N c evs).receivedDhcpPacket ≤ N) ∧
        (∀ t ∈ recs, ∃ d ∈ replies (eventPackets evs), ∃ o1,
          d.Options[1]? = some o1 ∧ firstOptionByte d = some DHCPMsgTypeOffer ∧
            t = recordOf d o1) := by
  intro evs
  induction evs with
  | nil =>
    intro c
    exact ⟨[], [], by simp [readPacketLoop], Or.inr ⟨by simp [readPacketLoop], rfl⟩,
      by simp [readPacketLoop], by intro h; simp [readPacketLoop]; omega, by simp⟩
  | cons e es ih =>
    intro c
    cases e with
    | deadline =>
      exact ⟨[], [Send.status 1, Send.endChan 1], by simp [readPacketLoop],
        Or.inl ⟨by simp [readPacketLoop], Or.inr rfl⟩,
        by simp [readPacketLoop], by intro h; simp [readPacketLoop]; omega, by simp⟩
    | packet p =>
      cases hstep : onPacket N c p with
      | none =>
        rw [readPacketLoop_panic N c p es hstep]
        exact ⟨[], [], by simp, Or.inr ⟨by simp, rfl⟩, by simp, by intro h; simp; omega,
          by simp⟩
      | some res =>
        obtain ⟨sent, c', done⟩ := res
        obtain ⟨recs, hsent, hdone, hgo, hcase⟩ := onPacket_eq_some hstep
        have hmem : ∀ t ∈ recs, ∃ d ∈ replies (eventPackets (Event.packet p :: es)), ∃ o1,
            d.Options[1]? = some o1 ∧ firstOptionByte d = some DHCPMsgTypeOffer ∧
              t = recordOf d o1 := by
          intro t ht
          rcases hcase with ⟨_, h2, _⟩ | ⟨_, d, hr, hrec⟩
          · rw [h2] at ht; cases ht
          · rcases offerRecords_eq_some hrec with ⟨_, _, h3⟩ | ⟨hb, o1, ho1, h3⟩
            · rw [h3] at ht; cases ht
            · rw [h3] at ht
              simp only [List.mem_singleton] at ht
              refine ⟨d, ?_, o1, ho1, hb, ht⟩
              simp [eventPackets, replies_cons, hr]
        have hlen : (recs.length : Int) ≤ c' - c := by
          rcases hcase with ⟨h1, h2, _⟩ | ⟨h1, d, _, hrec⟩
          · simp [h1, h2]
          · have := offerRecords_length_le hrec
            omega
        cases done with
        | true =>
          rw [readPacketLoop_return N c c' p es sent hstep]
          refine ⟨recs, [Send.status 0, Send.endChan 1], by simpa using hsent,
            Or.inl ⟨rfl, Or.inl ⟨rfl, hdone rfl⟩⟩, hlen, ?_, hmem⟩
          intro _
          have := hdone rfl
          simp only
          omega
        | false =>
          rw [readPacketLoop_continue N c c' p es sent hstep]
          obtain ⟨recs2, fin, h1, h2, h3, h4, h5⟩ := ih c'
          refine ⟨recs ++ recs2, fin, ?_, h2, ?_, ?_, ?_⟩
          · simp only [h1]
            simp [hsent]
          · simp only [List.length_append, Nat.cast_add]
            omega
          · intro hc
            simp only
            apply h4
            rcases hcase with ⟨h1, _, _⟩ | ⟨h1, d, hr, _⟩
            · omega
            · have := hgo rfl (by simp [hr])
              omega
          · intro t ht
            rcases List.mem_append.mp ht with ht | ht
            · exact hmem t ht
            · obtain ⟨d, hd, rest⟩ := h5 t ht
              refine ⟨d, ?_, rest⟩
              simp only [eventPackets, replies_cons]
              cases hr : replyOf p with
              | none => exact hd
              | some e => exact List.mem_cons_of_mem _ hd

/-! ## The receive loop: properties -/

theorem offerFirst_records {d : DHCPv4} (h : offerFirst d) :
    ∃ o1, d.Options[1]? = some o1 ∧ offerRecords d = some [recordOf d o1] := by
  obtain ⟨⟨_, hmt⟩, h0, hlen⟩ := h
  cases hopts : d.Options with
  | nil => rw [hopts] at hlen; simp at hlen
  | cons o0 os =>
    cases os with
    | nil => rw [hopts] at hlen; simp at hlen
    | cons o1 os2 =>
      rw [hopts] at h0
      simp only [List.getElem?_cons_zero, Option.map_some', Option.some.injEq] at h0
      unfold specMessageType at hmt
      rw [hopts] at hmt
      simp only [List.find?_cons, h0, decide_True] at hmt
      refine ⟨o1, by simp, ?_⟩
      unfold offerRecords
      simp only [hopts, List.getElem?_cons_zero, hmt, if_true, List.getElem?_cons_succ, recordOf]

theorem offered_of_offerFirst (ds : List DHCPv4) (h : ∀ d ∈ ds, offerFirst d) :
    (offered ds).map (fun t => t.SrcMac) =
      ds.map (fun d => HardwareAddr.String d.ClientHWAddr) := by
  induction ds with
  | nil => rfl
  | cons d ds ih =>
    obtain ⟨o1, _, hrec⟩ := offerFirst_records (h d (List.mem_cons_self _ _))
    simp only [offered, hrec, Option.getD_some, List.map_append, List.map_cons, List.map_nil,
      List.singleton_append, recordOf]
    rw [ih (fun e he => h e (List.mem_cons_of_mem _ he))]

theorem offered_length (ds : List DHCPv4) (hsafe : ∀ d ∈ ds, offerRecords d ≠ none) :
    (offered ds).length =
      (ds.filter (fun d => decide (firstOptionByte d = some DHCPMsgTypeOffer))).length := by
  induction ds with
  | nil => rfl
  | cons d ds ih =>
    have ih2 := ih (fun e he => hsafe e (List.mem_cons_of_mem _ he))
    obtain ⟨recs, hrec⟩ := Option.ne_none_iff_exists'.mp (hsafe d (List.mem_cons_self _ _))
    rw [List.filter_cons]
    rcases offerRecords_eq_some hrec with ⟨_, hb, h1⟩ | ⟨hb, o1, ho1, h1⟩
    · rw [if_neg (by simpa using hb)]
      simp [offered, hrec, h1, ih2]
    · rw [if_pos (by simpa using hb)]
      simp only [offered, hrec, h1, Option.getD_some, List.length_append, List.length_cons,
        List.length_nil, ih2]
      omega

/-- For at least one requested address, every point of every run has sent at most
`N` records: the bound holds for each initial part of the trace of sends. -/
theorem readPacket_records_le (N : Int) (hN : 1 ≤ N) (evs : List Event) (pre : List Send)
    (hpre : pre <+: (readPacket N evs).sends) : ((records pre).length : Int) ≤ N := by
  obtain ⟨recs, fin, h1, h2, h3, h4, _⟩ := readPacketLoop_shape N evs 0
  have hall : ((records (readPacket N evs).sends).length : Int) ≤ N := by
    have hrec : records (readPacket N evs).sends = recs := by
      unfold readPacket
      rw [h1, records_append, records_map_testChan]
      rcases h2 with ⟨_, ⟨hf, _⟩ | hf⟩ | ⟨_, hf⟩ <;> simp [hf, records]
    rw [hrec]
    have := h4 (by omega)
    omega
  obtain ⟨suf, hsuf⟩ := hpre
  rw [← hsuf, records_append, List.length_append] at hall
  push_cast at hall
  omega

/-- When the timer fires among the events and no reply before it makes the index
expressions fail, the run returns having sent exactly one status value, 0 or 1, and
the status value comes after every record. -/
theorem readPacket_one_status (N : Int) (frames : List Packet) (tail : List Event)
    (hsafe : ∀ d ∈ replies frames, offerRecords d ≠ none) :
    (readPacket N (frames.map Event.packet ++ Event.deadline :: tail)).outcome = .returned ∧
    ∃ (recs : List SingleTest) (v : Int), (v = 0 ∨ v = 1) ∧
      (readPacket N (frames.map Event.packet ++ Event.deadline :: tail)).sends =
        recs.map Send.testChan ++ [Send.status v, Send.endChan 1] := by
  have hret : ∀ (fs : List Packet) (c : Int), (∀ d ∈ replies fs, offerRecords d ≠ none) →
      (readPacketLoop N c (fs.map Event.packet ++ Event.deadline :: tail)).outcome =
        .returned := by
    intro fs
    induction fs with
    | nil => intro c _; simp [readPacketLoop]
    | cons p ps ih =>
      intro c hs
      rw [replies_cons] at hs
      cases hstep : onPacket N c p with
      | none =>
        exfalso
        cases hp : p.dhcp4layer with
        | none => rw [onPacket_noLayer N c p hp] at hstep; cases hstep
        | some d =>
          by_cases hop : d.Operation = DHCPOpReply
          · have hr : replyOf p = some d := replyOf_eq_some.mpr ⟨hp, hop⟩
            rw [hr] at hs
            have hd := hs d (List.mem_cons_self _ _)
            obtain ⟨recs, hrecs⟩ := Option.ne_none_iff_exists'.mp hd
            rw [onPacket_reply N c p d hp hop, hrecs] at hstep
            by_cases hc : c + 1 = N <;> simp [hc] at hstep
          · rw [onPacket_notReply N c p d hp hop] at hstep
            by_cases hc : c = N <;> simp [hc] at hstep
      | some res =>
        obtain ⟨sent, c', done⟩ := res
        cases done with
        | true =>
          rw [List.map_cons, List.cons_append, readPacketLoop_return N c c' p _ sent hstep]
        | false =>
          rw [List.map_cons, List.cons_append, readPacketLoop_continue N c c' p _ sent hstep]
          apply ih
          intro e he
          cases hr : replyOf p with
          | none => rw [hr] at hs; exact hs e he
          | some d => rw [hr] at hs; exact hs e (List.mem_cons_of_mem _ he)
  have hout := hret frames 0 hsafe
  refine ⟨hout, ?_⟩
  obtain ⟨recs, fin, h1, h2, _⟩ :=
    readPacketLoop_shape N (frames.map Event.packet ++ Event.deadline :: tail) 0
  rcases h2 with ⟨_, ⟨hf, _⟩ | hf⟩ | ⟨hne, _⟩
  · exact ⟨recs, 0, Or.inl rfl, by unfold readPacket; rw [h1, hf]⟩
  · exact ⟨recs, 1, Or.inr rfl, by unfold readPacket; rw [h1, hf]⟩
  · exact absurd hout hne

/-! ## The receive loop: the claims -/

/-- C1, at the failing input: one address is requested and answered, before the
deadline, by an Offer that carries its server identifier before its message type;
`readPacket` tests the first byte of the first option, does not find the Offer,
counts the reply and publishes status 0 with no record at all, where the claim has
one record for the requested address. -/
theorem C1_offer_server_first_gets_no_record :
    ([macA] : List Bytes) ≠ [] ∧
    (∀ d ∈ replies [dhcpPacket (sampleOfferServerFirst macA)], specIsOffer d) ∧
    (replies [dhcpPacket (sampleOfferServerFirst macA)]).map (fun d => d.ClientHWAddr) =
      [macA] ∧
    (readPacket (([macA] : List Bytes).length : Int)
        [Event.packet (dhcpPacket (sampleOfferServerFirst macA)), Event.deadline]).sends =
      [Send.status 0, Send.endChan 1] := by
  decide

/-- Where the positional reading of the options does find the Offers: for every
non-empty list of N requested addresses and every sequence of inbound frames in
which, before the deadline event, the reply frames are exactly N Offers that happen
to carry the message type option first and a further option after it, one for each
requested address in any order, `readPacket` returns having published status 0 and
exactly N records, whose SrcMac texts are, up to order, the texts of the requested
addresses; when those texts are distinct, exactly one record carries each. -/
theorem readPacket_offersFirst_all_answered (addrs : List Bytes) (frames : List Packet) (tail : List Event)
    (hne : addrs ≠ [])
    (hoff : ∀ d ∈ replies frames, offerFirst d)
    (hperm : ((replies frames).map (fun d => d.ClientHWAddr)).Perm addrs) :
    (readPacket (addrs.length : Int)
      (frames.map Event.packet ++ Event.deadline :: tail)).outcome = .returned ∧
    statuses (readPacket (addrs.length : Int)
      (frames.map Event.packet ++ Event.deadline :: tail)).sends = [0] ∧
    (records (readPacket (addrs.length : Int)
      (frames.map Event.packet ++ Event.deadline :: tail)).sends).length = addrs.length ∧
    ((records (readPacket (addrs.length : Int)
      (frames.map Event.packet ++ Event.deadline :: tail)).sends).map
        (fun t => t.SrcMac)).Perm (addrs.map HardwareAddr.String) ∧
    ((addrs.map HardwareAddr.String).Nodup → ∀ a ∈ addrs,
      ((records (readPacket (addrs.length : Int)
        (frames.map Event.packet ++ Event.deadline :: tail)).sends).map
          (fun t => t.SrcMac)).count (HardwareAddr.String a) = 1) := by
  have hlen : (replies frames).length = addrs.length := by simpa using hperm.length_eq
  have hpos : (0 : Int) < (addrs.length : Int) := by
    cases addrs with
    | nil => exact absurd rfl hne
    | cons a as => simp only [List.length_cons]; push_cast; omega
  have hsafe : ∀ d ∈ replies frames, offerRecords d ≠ none := by
    intro d hd
    obtain ⟨o1, _, h⟩ := offerFirst_records (hoff d hd)
    simp [h]
  have hrun := readPacketLoop_complete (addrs.length : Int) frames 0 (Event.deadline :: tail)
    hsafe hpos (by rw [hlen]; simp)
  have hrec : records (readPacket (addrs.length : Int)
      (frames.map Event.packet ++ Event.deadline :: tail)).sends = offered (replies frames) := by
    unfold readPacket
    rw [hrun]
    simp [records_append, records_map_testChan, records]
  have hmacs : (offered (replies frames)).map (fun t => t.SrcMac) =
      (replies frames).map (fun d => HardwareAddr.String d.ClientHWAddr) :=
    offered_of_offerFirst _ hoff
  have hp : ((offered (replies frames)).map (fun t => t.SrcMac)).Perm
      (addrs.map HardwareAddr.String) := by
    rw [hmacs]
    have := hperm.map HardwareAddr.String
    simpa [List.map_map] using this
  refine ⟨?_, ?_, ?_, ?_, ?_⟩
  · unfold readPacket; rw [hrun]
  · unfold readPacket; rw [hrun]
    simp [statuses_append, statuses_map_testChan, statuses]
  · rw [hrec]
    have := hp.length_eq
    simpa using this
  · rw [hrec]; exact hp
  · intro hnd a ha
    rw [hrec, hp.count_eq]
    exact List.count_eq_one_of_mem hnd (List.mem_map_of_mem _ ha)

/-- Scenario A of the specification: two addresses, both answered by an Offer with
the message type first, among other traffic. -/
theorem readPacket_offersFirst_all_answered_example :
    (([macA, macB] : List Bytes) ≠ [] ∧
      (∀ d ∈ replies [otherPacket, dhcpPacket (sampleOffer macB),
        dhcpPacket (sampleDiscover macA), dhcpPacket (sampleOffer macA)], offerFirst d)) ∧
    (records (readPacket (([macA, macB] : List Bytes).length : Int)
      ([otherPacket, dhcpPacket (sampleOffer macB), dhcpPacket (sampleDiscover macA),
        dhcpPacket (sampleOffer macA)].map Event.packet ++ Event.deadline :: [])).sends).length =
      ([macA, macB] : List Bytes).length :=
  ⟨⟨by decide, by decide⟩,
    (readPacket_offersFirst_all_answered [macA, macB]
      [otherPacket, dhcpPacket (sampleOffer macB), dhcpPacket (sampleDiscover macA),
        dhcpPacket (sampleOffer macA)] [] (by decide) (by decide) (by decide)).2.2.1⟩

/-- C2, at the failing input: with an empty address list `Start` hands `readPacket`
the count 0, and two Offers on the wire give two published records. -/
theorem C2_empty_list_publishes :
    ∃ c, NewClient [] "eth0" "host" 7 none = .ok c ∧ c.macs.length = 0 ∧
      (records (Start_readPacket c
        [Event.packet (dhcpPacket (sampleOffer macC)),
         Event.packet (dhcpPacket (sampleOffer macC)), Event.deadline]).sends).length = 2 :=
  ⟨_, rfl, by decide, by decide⟩

/-- C3, at the failing input: one address is requested and a reply without options
arrives before the deadline; the run panics and no status value is ever published. -/
theorem C3_panic_leaves_no_status :
    (readPacket 1 [Event.packet (dhcpPacket (sampleNoOptions macA)), Event.deadline]).outcome =
      .panicked ∧
    statuses (readPacket 1
      [Event.packet (dhcpPacket (sampleNoOptions macA)), Event.deadline]).sends = [] := by
  decide

/-- C4, at the failing input: two addresses are requested and exactly two replies
arrive before the deadline, an Ack (message type 5) whose first option is the server
identifier 2.0.0.1 and a Nak (message type 6); none of them is an Offer, yet
`readPacket` takes the first byte of the Ack's first option for the message type,
publishes a record for the Ack, with DhcpServer "?05", and ends with status 0 and
one record, where the claim has no record. -/
theorem C4_ack_gets_record :
    (sampleAckServerFirst macA).Operation = DHCPOpReply ∧
    specMessageType (sampleAckServerFirst macA) = some 5 ∧
    ¬ specIsOffer (sampleAckServerFirst macA) ∧
    ¬ specIsOffer (sampleNak macB) ∧
    records (readPacket 2 [Event.packet (dhcpPacket (sampleAckServerFirst macA))]).sends =
      [{ SrcMac := "aa:aa:aa:aa:aa:aa", OfferedIp := "192.168.1.50", DhcpServer := "?05" }] ∧
    readPacket 2 [Event.packet (dhcpPacket (sampleAckServerFirst macA)),
        Event.packet (dhcpPacket (sampleNak macB)), Event.deadline] =
      { sends := [Send.testChan { SrcMac := "aa:aa:aa:aa:aa:aa", OfferedIp := "192.168.1.50",
                                  DhcpServer := "?05" },
                  Send.status 0, Send.endChan 1],
        receivedDhcpPacket := 2, outcome := .returned } := by
  decide

/-- How replies are counted when the index expressions are in range: for N at least
1, a reply whose first option has a data byte (and which has a second option when
that byte is 2) adds exactly one to the counter whether or not that byte is 2, sends
no record when the byte is not 2, and at that step sends status 0 exactly when the
counter reaches N; and when a sequence of such frames holds exactly N replies before
the deadline, the run returns with status 0 and with as many records as there are
replies whose first option starts with byte 2. -/
theorem readPacket_readable_replies_counted (N : Int) (hN : 1 ≤ N) (c : Int) (d : DHCPv4)
    (hop : d.Operation = DHCPOpReply) (hdec : offerRecords d ≠ none)
    (frames : List Packet) (tail : List Event)
    (hsafe : ∀ e ∈ replies frames, offerRecords e ≠ none)
    (hcount : ((replies frames).length : Int) = N) :
    (∃ sent done, onPacket N c (dhcpPacket d) = some (sent, c + 1, done) ∧
      (firstOptionByte d ≠ some DHCPMsgTypeOffer → records sent = []) ∧
      statuses sent = (if c + 1 = N then [0] else [])) ∧
    (readPacket N (frames.map Event.packet ++ Event.deadline :: tail)).outcome = .returned ∧
    statuses (readPacket N (frames.map Event.packet ++ Event.deadline :: tail)).sends = [0] ∧
    (records (readPacket N (frames.map Event.packet ++ Event.deadline :: tail)).sends).length =
      ((replies frames).filter
        (fun e => decide (firstOptionByte e = some DHCPMsgTypeOffer))).length := by
  refine ⟨?_, ?_⟩
  · obtain ⟨recs, hrecs⟩ := Option.ne_none_iff_exists'.mp hdec
    have hstep := onPacket_reply N c (dhcpPacket d) d rfl hop
    rw [hrecs] at hstep
    have hnot : firstOptionByte d ≠ some DHCPMsgTypeOffer → recs = [] := by
      intro hb
      rcases offerRecords_eq_some hrecs with ⟨_, _, h⟩ | ⟨h, _⟩
      · exact h
      · exact absurd h hb
    by_cases hc : c + 1 = N
    · refine ⟨recs.map Send.testChan ++ [Send.status 0, Send.endChan 1], true,
        by rw [hstep]; simp [hc], ?_, ?_⟩
      · intro hb; simp [hnot hb, records]
      · simp [hc, statuses_append, statuses_map_testChan, statuses]
    · refine ⟨recs.map Send.testChan, false, by rw [hstep]; simp [hc], ?_, ?_⟩
      · intro hb; simp [hnot hb, records]
      · simp [hc, statuses_map_testChan]
  · have hrun := readPacketLoop_complete N frames 0 (Event.deadline :: tail) hsafe (by omega)
      (by omega)
    unfold readPacket
    rw [hrun]
    refine ⟨rfl, ?_, ?_⟩
    · simp [statuses_append, statuses_map_testChan, statuses]
    · simp only [records_append, records_map_testChan, records, List.append_nil]
      exact offered_length _ hsafe

/-- A Nak for one of two addresses and an Offer for the other: status 0 and one
record. -/
theorem readPacket_readable_replies_counted_example :
    ((1 : Int) ≤ 2 ∧ (sampleNak macA).Operation = DHCPOpReply ∧
      offerRecords (sampleNak macA) ≠ none) ∧
    statuses (readPacket 2 ([dhcpPacket (sampleNak macA), otherPacket,
      dhcpPacket (sampleOffer macB)].map Event.packet ++ Event.deadline :: [])).sends = [0] ∧
    (records (readPacket 2 ([dhcpPacket (sampleNak macA), otherPacket,
      dhcpPacket (sampleOffer macB)].map Event.packet ++ Event.deadline :: [])).sends).length =
      (([dhcpPacket (sampleNak macA), otherPacket, dhcpPacket (sampleOffer macB)].filterMap
        replyOf).filter (fun e => decide (firstOptionByte e = some DHCPMsgTypeOffer))).length :=
  ⟨⟨by decide, by decide, by decide⟩,
    (readPacket_readable_replies_counted 2 (by decide) 0 (sampleNak macA) (by decide) (by decide)
      [dhcpPacket (sampleNak macA), otherPacket, dhcpPacket (sampleOffer macB)] []
      (by decide) (by decide)).2.2⟩

/-- C5, at the failing inputs: a reply without options, a reply whose first option
has no data, and an Offer without a second option each make `readPacket` panic; the
counter is not incremented and the loop does not go on to the frames that follow. -/
theorem C5_malformed_reply_panics :
    readPacket 2 [Event.packet (dhcpPacket (sampleNoOptions macA)),
        Event.packet (dhcpPacket (sampleOffer macA)),
        Event.packet (dhcpPacket (sampleOffer macB)), Event.deadline] =
      { sends := [], receivedDhcpPacket := 0, outcome := .panicked } ∧
    readPacket 2 [Event.packet (dhcpPacket (samplePadFirst macA)),
        Event.packet (dhcpPacket (sampleOffer macA)),
        Event.packet (dhcpPacket (sampleOffer macB)), Event.deadline] =
      { sends := [], receivedDhcpPacket := 0, outcome := .panicked } ∧
    readPacket 2 [Event.packet (dhcpPacket (sampleOfferAlone macA)),
        Event.packet (dhcpPacket (sampleOffer macA)),
        Event.packet (dhcpPacket (sampleOffer macB)), Event.deadline] =
      { sends := [], receivedDhcpPacket := 0, outcome := .panicked } := by
  decide

/-- C6, at the failing inputs: an Offer whose MessageType option (53) stands second
gets no record, and an Offer whose server identifier option (54, 192.168.1.1) stands
third gets a record whose DhcpServer is "0.0.14.16", the text of its second option,
the lease time; the claim has a record for each, with DhcpServer 192.168.1.1. -/
theorem C6_options_read_by_position :
    (specIsOffer (sampleOfferServerFirst macA) ∧
      records (readPacket 2
        [Event.packet (dhcpPacket (sampleOfferServerFirst macA))]).sends = []) ∧
    (specIsOffer (sampleOfferLeaseSecond macA) ∧
      specServerID (sampleOfferLeaseSecond macA) = some [192, 168, 1, 1] ∧
      IP.String [192, 168, 1, 1] = "192.168.1.1" ∧
      records (readPacket 2
        [Event.packet (dhcpPacket (sampleOfferLeaseSecond macA))]).sends =
        [{ SrcMac := "aa:aa:aa:aa:aa:aa", OfferedIp := "192.168.1.50",
           DhcpServer := "0.0.14.16" }]) := by
  decide

/-- What the loop does with one reply, at any point: when its first option has a
first data byte b (and it has a second option when b is 2), a record is sent exactly
when b is 2, the code of that option not being looked at; the record has SrcMac
equal to the text of the frame's client hardware address, OfferedIp equal to the
text of its 'your IP' field and DhcpServer equal to the text of the data of the
frame's second option, the code of which is not looked at either; that text is
dotted decimal when the data is four bytes long. -/
theorem readPacketLoop_record_of_first_two_options (N c : Int) (d : DHCPv4) (b : Nat)
    (hop : d.Operation = DHCPOpReply) (hb : firstOptionByte d = some b)
    (h1 : b = DHCPMsgTypeOffer → d.Options[1]? ≠ none) :
    (b ≠ DHCPMsgTypeOffer →
      records (readPacketLoop N c [Event.packet (dhcpPacket d)]).sends = []) ∧
    (b = DHCPMsgTypeOffer → ∃ o1, d.Options[1]? = some o1 ∧
      records (readPacketLoop N c [Event.packet (dhcpPacket d)]).sends =
        [{ SrcMac := HardwareAddr.String d.ClientHWAddr,
           OfferedIp := IP.String d.YourClientIP,
           DhcpServer := IP.String o1.Data }] ∧
      (o1.Data.length = 4 → IP.String o1.Data = String.mk (dotted o1.Data))) := by
  have hrecs : ∀ recs, offerRecords d = some recs →
      records (readPacketLoop N c [Event.packet (dhcpPacket d)]).sends = recs := by
    intro recs hrecs
    have hstep := onPacket_reply N c (dhcpPacket d) d rfl hop
    rw [hrecs] at hstep
    by_cases hc : c + 1 = N
    · simp only [hc, if_true] at hstep
      rw [readPacketLoop_return N c _ _ _ _ hstep]
      simp [records_append, records_map_testChan, records]
    · simp only [hc, if_false] at hstep
      rw [readPacketLoop_continue N c _ _ _ _ hstep]
      simp [readPacketLoop, records_map_testChan]
  unfold firstOptionByte at hb
  cases h0 : d.Options[0]? with
  | none => simp [h0] at hb
  | some o0 =>
    simp only [h0] at hb
    constructor
    · intro hne
      apply hrecs
      unfold offerRecords
      simp only [h0, hb, hne, if_false]
    · intro heq
      cases ho1 : d.Options[1]? with
      | none => exact absurd ho1 (h1 heq)
      | some o1 =>
        refine ⟨o1, rfl, ?_, ?_⟩
        · apply hrecs
          unfold offerRecords
          simp only [h0, hb, heq, if_true, ho1]
        · intro h4
          unfold IP.String IP.To4
          simp [h4]

/-- An Offer laid out message type first, server identifier second: one record, with
the server identifier as DhcpServer. -/
theorem readPacketLoop_record_of_first_two_options_example :
    ((sampleOffer macA).Operation = DHCPOpReply ∧
      firstOptionByte (sampleOffer macA) = some 2) ∧
    ∃ o1, (sampleOffer macA).Options[1]? = some o1 ∧
      records (readPacketLoop 2 0 [Event.packet (dhcpPacket (sampleOffer macA))]).sends =
        [{ SrcMac := HardwareAddr.String (sampleOffer macA).ClientHWAddr,
           OfferedIp := IP.String (sampleOffer macA).YourClientIP,
           DhcpServer := IP.String o1.Data }] ∧
      (o1.Data.length = 4 → IP.String o1.Data = String.mk (dotted o1.Data)) :=
  ⟨⟨by decide, by decide⟩,
    (readPacketLoop_record_of_first_two_options 2 0 (sampleOffer macA) 2 (by decide) (by decide)
      (by decide)).2 rfl⟩

theorem ParseMAC_broadcast :
    (ParseMAC "ff:ff:ff:ff:ff:ff").getD [] = [255, 255, 255, 255, 255, 255] := by
  decide

/-- What `NewClient` returns when it returns a client. -/
theorem NewClient_eq_ok {macs : List String} {ifname hostname : String} {xid : Nat}
    {openErr : Option String} {c : Client}
    (h : NewClient macs ifname hostname xid openErr = .ok c) :
    c = { HW := [], PeerHw := [], IP := netIPv4 0 0 0 0, IFName := ifname,
          ethLayer := { SrcMAC := [], DstMAC := [255, 255, 255, 255, 255, 255],
                        EthernetType := EthernetTypeIPv4 },
          ipLayer := { Version := 4, Protocol := IPProtocolUDP, TTL := 64,
                       SrcIP := netIPv4 0 0 0 0, DstIP := netIPv4 255 255 255 255 },
          udpLayer := { SrcPort := 68, DstPort := 67 },
          dhcpLayer := { Operation := DHCPOpRequest, HardwareType := LinkTypeEthernet,
                         Xid := xid % 2 ^ 32, Flags := 0, ClientIP := netIPv4 0 0 0 0,
                         YourClientIP := [], ClientHWAddr := [],
                         Options :=
                           [ { Typ := DHCPOptMessageType, Length := 1,
                               Data := [DHCPMsgTypeDiscover] },
                             { Typ := DHCPOptParamsRequest, Length := 29,
                               Data := NewClient.options },
                             { Typ := DHCPOptEnd, Length := 0, Data := [] } ] },
          opts := { FixLengths := true, ComputeChecksums := true },
          macs := macs } := by
  unfold NewClient at h
  rw [ParseMAC_broadcast] at h
  cases openErr with
  | some err => cases h
  | none =>
    simp only [Except.ok.injEq] at h
    rw [← h]
    rfl

/-- The assignments of one turn overwrite those of the turn before. -/
theorem setAddress_setAddress {c c1 : Client} {m0 : String} (h : setAddress c m0 = some c1)
    (m : String) : setAddress c1 m = setAddress c m := by
  unfold setAddress at h ⊢
  cases hopts : c.dhcpLayer.Options with
  | nil => simp [hopts] at h
  | cons o os =>
    simp only [hopts, Option.some.injEq] at h
    subst h
    rfl

theorem sendDiscoverLoop_writes_extend (writeErr : Nat → Option String) :
    ∀ (macs : List String) (c1 : Client) (ws : List Write),
      ∃ new, (sendDiscoverLoop writeErr c1 macs ws).writes = ws ++ new := by
  intro macs
  induction macs with
  | nil => intro c1 ws; exact ⟨[], by simp [sendDiscoverLoop]⟩
  | cons m rest ih =>
    intro c1 ws
    unfold sendDiscoverLoop
    cases hset : setAddress c1 m with
    | none => exact ⟨[], by simp⟩
    | some c2 =>
      simp only
      cases hser : SerializeLayers c2.ethLayer c2.ipLayer c2.udpLayer c2.dhcpLayer with
      | error e => exact ⟨[], by simp⟩
      | ok buf =>
        simp only
        obtain ⟨new, hnew⟩ := ih c2 (ws ++ [(writePacket writeErr ws.length buf).1])
        exact ⟨(writePacket writeErr ws.length buf).1 :: new, by rw [hnew]; simp⟩

theorem getElem?_past {α : Type} (ws : List α) (i : Nat) : ws[ws.length + i]? = none :=
  List.getElem?_eq_none (by omega)

/-- What the assignments of one turn leave in the layers. -/
theorem setAddress_eq_some {c c1 : Client} {m : String} (h : setAddress c m = some c1) :
    c1.ethLayer.SrcMAC = (ParseMAC m).getD [] ∧
    c1.dhcpLayer.ClientHWAddr = (ParseMAC m).getD [] ∧
    c1.ethLayer.DstMAC = c.ethLayer.DstMAC ∧
    c1.ethLayer.EthernetType = c.ethLayer.EthernetType ∧
    c1.ipLayer = c.ipLayer ∧ c1.udpLayer = c.udpLayer ∧
    c1.dhcpLayer.Operation = c.dhcpLayer.Operation ∧
    c1.dhcpLayer.HardwareType = c.dhcpLayer.HardwareType ∧
    c1.dhcpLayer.Xid = c.dhcpLayer.Xid ∧
    (∃ o os, c.dhcpLayer.Options = o :: os ∧
      c1.dhcpLayer.Options = { o with Data := [DHCPMsgTypeDiscover] } :: os) := by
  unfold setAddress at h
  cases hopts : c.dhcpLayer.Options with
  | nil => simp [hopts] at h
  | cons o os =>
    simp only [hopts, Option.some.injEq] at h
    subst h
    exact ⟨rfl, rfl, rfl, rfl, rfl, rfl, rfl, rfl, rfl, o, os, rfl, rfl⟩

theorem setAddress_ne_none {c : Client} (m : String) (h : c.dhcpLayer.Options ≠ []) :
    setAddress c m ≠ none := by
  unfold setAddress
  cases hopts : c.dhcpLayer.Options with
  | nil => exact absurd hopts h
  | cons o os => simp

theorem writePacket_fst (writeErr : Nat → Option String) (k : Nat) (buf : Frame) :
    (writePacket writeErr k buf).1 = { buf := buf, err := writeErr k } := by
  unfold writePacket
  cases writeErr k <;> rfl

/-- The writes follow the address list in step: the write at position `i` past those
already made carries the frame serialized for the address at position `i`, and the
outcome of that call of the handle. -/
theorem sendDiscoverLoop_writes_at (writeErr : Nat → Option String) (c : Client) :
    ∀ (macs : List String) (c1 : Client) (ws : List Write) (i : Nat) (w : Write),
      (∀ m, setAddress c1 m = setAddress c m) →
      (sendDiscoverLoop writeErr c1 macs ws).writes[ws.length + i]? = some w →
      ∃ m f, macs[i]? = some m ∧ frameFor c m = some f ∧
        w = { buf := f, err := writeErr (ws.length + i) } := by
  intro macs
  induction macs with
  | nil =>
    intro c1 ws i w _ hw
    simp only [sendDiscoverLoop, getElem?_past] at hw
    cases hw
  | cons m rest ih =>
    intro c1 ws i w hinv hw
    unfold sendDiscoverLoop at hw
    cases hset : setAddress c1 m with
    | none =>
      simp only [hset, getElem?_past] at hw
      cases hw
    | some c2 =>
      simp only [hset] at hw
      cases hser : SerializeLayers c2.ethLayer c2.ipLayer c2.udpLayer c2.dhcpLayer with
      | error e =>
        simp only [hser, getElem?_past] at hw
        cases hw
      | ok buf =>
        simp only [hser] at hw
        have hinv2 : ∀ m', setAddress c2 m' = setAddress c m' := fun m' => by
          rw [setAddress_setAddress hset m', hinv m']
        cases i with
        | zero =>
          obtain ⟨new, hnew⟩ := sendDiscoverLoop_writes_extend writeErr rest c2
            (ws ++ [(writePacket writeErr ws.length buf).1])
          rw [hnew] at hw
          simp only [Nat.add_zero, List.append_assoc, List.singleton_append] at hw
          rw [List.getElem?_append_right (Nat.le_refl _)] at hw
          simp only [Nat.sub_self, List.getElem?_cons_zero, Option.some.injEq] at hw
          refine ⟨m, buf, by simp, ?_, ?_⟩
          · unfold frameFor
            rw [← hinv m, hset]
            simp only [hser]
          · rw [← hw, writePacket_fst]; rfl
        | succ j =>
          have hidx : ws.length + (j + 1) =
              (ws ++ [(writePacket writeErr ws.length buf).1]).length + j := by
            simp only [List.length_append, List.length_cons, List.length_nil]; omega
          rw [hidx] at hw
          obtain ⟨m', f, h1, h2, h3⟩ := ih c2 _ j w hinv2 hw
          refine ⟨m', f, by simpa using h1, h2, ?_⟩
          rw [h3, ← hidx]

/-- With six-byte layers otherwise in order, a list of addresses that all parse to
six bytes is sent to its end: one write for each and the result nil. -/
theorem sendDiscoverLoop_all (writeErr : Nat → Option String) :
    ∀ (macs : List String) (c1 : Client) (ws : List Write),
      c1.dhcpLayer.Options ≠ [] → c1.ethLayer.DstMAC.length = 6 →
      (IP.To4 c1.ipLayer.SrcIP).length = 4 → (IP.To4 c1.ipLayer.DstIP).length = 4 →
      (∀ m ∈ macs, (ParseMAC m).map List.length = some 6) →
      (sendDiscoverLoop writeErr c1 macs ws).outcome = .returned none ∧
      (sendDiscoverLoop writeErr c1 macs ws).writes.length = ws.length + macs.length := by
  intro macs
  induction macs with
  | nil => intro c1 ws _ _ _ _ _; simp [sendDiscoverLoop]
  | cons m rest ih =>
    intro c1 ws hopts hdst hsrc4 hdst4 hwf
    have hm := hwf m (List.mem_cons_self _ _)
    obtain ⟨hw, hparse, hlen⟩ : ∃ hw, ParseMAC m = some hw ∧ hw.length = 6 := by
      cases hp : ParseMAC m with
      | none => simp [hp] at hm
      | some hw => exact ⟨hw, rfl, by simpa [hp] using hm⟩
    unfold sendDiscoverLoop
    cases hset : setAddress c1 m with
    | none => exact absurd hset (setAddress_ne_none m hopts)
    | some c2 =>
      obtain ⟨e1, _, e3, _, e5, _, _, _, _, o, os, _, e10⟩ := setAddress_eq_some hset
      have hser : ∃ buf, SerializeLayers c2.ethLayer c2.ipLayer c2.udpLayer c2.dhcpLayer =
          .ok buf := by
        unfold SerializeLayers
        rw [e1, e3, e5, hparse]
        simp [hsrc4, hdst4, hdst, hlen]
      obtain ⟨buf, hbuf⟩ := hser
      simp only [hbuf]
      have := ih c2 (ws ++ [(writePacket writeErr ws.length buf).1]) (by rw [e10]; simp)
        (by rw [e3]; exact hdst) (by rw [e5]; exact hsrc4) (by rw [e5]; exact hdst4)
        (fun m' hm' => hwf m' (List.mem_cons_of_mem _ hm'))
      refine ⟨this.1, ?_⟩
      rw [this.2]
      simp only [List.length_append, List.length_cons, List.length_nil]
      omega

theorem SerializeLayers_eq_ok {eth : Ethernet} {ip : IPv4} {udp : UDP} {dhcp : DHCPv4}
    {f : Frame} (h : SerializeLayers eth ip udp dhcp = .ok f) :
    f = { eth := eth, ip := ip, udp := udp, dhcp := dhcp } ∧
      eth.SrcMAC.length = 6 ∧ eth.DstMAC.length = 6 := by
  unfold SerializeLayers at h
  split at h
  · cases h
  · split at h
    · cases h
    · split at h
      · cases h
      · rename_i h1 h2
        simp only [Except.ok.injEq] at h
        exact ⟨h.symm, by simpa using h2, by simpa using h1⟩

/-! ## The frame template and the send loop: the claims -/

/-- C7, refuted as stated: in the option list that `NewClient` builds, the data of
the ParameterRequestList option ends with 67, 66 and not with 66, 67. -/
theorem C7_counterexample :
    ∃ c, NewClient ["aa:aa:aa:aa:aa:aa"] "eth0" "host" 7 none = .ok c ∧
      c.dhcpLayer.Options ≠
        [ { Typ := 53, Length := 1, Data := [1] },
          { Typ := 55, Length := 29,
            Data := [1, 2, 3, 4, 5, 6, 7, 8, 9, 10, 11, 12, 13, 14, 15, 16, 17, 18, 19,
                     51, 52, 53, 54, 55, 56, 60, 61, 66, 67] },
          { Typ := 255, Length := 0, Data := [] } ] ∧
      (c.dhcpLayer.Options[1]?).map (fun o => o.Data.drop 27) = some [67, 66] :=
  ⟨_, rfl, by decide, by decide⟩

/-- C7, as amended: the option list built by `NewClient` is exactly three options in
this order: MessageType (53) with length 1 and data [1] (Discover);
ParameterRequestList (55) whose data is the byte sequence 1, 2, ..., 19, 51, 52, 53,
54, 55, 56, 60, 61, 67, 66 in exactly that order and whose Length is the number of
those bytes, 29; End (255). -/
theorem C7_option_list (macs : List String) (ifname hostname : String) (xid : Nat)
    (openErr : Option String) (c : Client)
    (hc : NewClient macs ifname hostname xid openErr = .ok c) :
    c.dhcpLayer.Options =
      [ { Typ := 53, Length := 1, Data := [1] },
        { Typ := 55, Length := 29,
          Data := [1, 2, 3, 4, 5, 6, 7, 8, 9, 10, 11, 12, 13, 14, 15, 16, 17, 18, 19,
                   51, 52, 53, 54, 55, 56, 60, 61, 67, 66] },
        { Typ := 255, Length := 0, Data := [] } ] ∧
    c.dhcpLayer.Options.length = 3 ∧
    (c.dhcpLayer.Options[1]?).map (fun o => o.Data.length) = some 29 := by
  rw [NewClient_eq_ok hc]
  exact ⟨rfl, rfl, rfl⟩

/-- The client built for two addresses, by C7 as amended: its option list. -/
theorem C7_option_list_witness :
    NewClient ["aa:aa:aa:aa:aa:aa", "bb:bb:bb:bb:bb:bb"] "eth0" "host" 7 none =
      .ok sampleClient ∧
    sampleClient.dhcpLayer.Options =
      [ { Typ := 53, Length := 1, Data := [1] },
        { Typ := 55, Length := 29,
          Data := [1, 2, 3, 4, 5, 6, 7, 8, 9, 10, 11, 12, 13, 14, 15, 16, 17, 18, 19,
                   51, 52, 53, 54, 55, 56, 60, 61, 67, 66] },
        { Typ := 255, Length := 0, Data := [] } ] :=
  ⟨rfl,
    (C7_option_list ["aa:aa:aa:aa:aa:aa", "bb:bb:bb:bb:bb:bb"] "eth0" "host" 7 none
      sampleClient rfl).1⟩

/-- C8: for every list of n addresses that each parse to six bytes, and whatever the
result of each call of the write handle, `sendDiscover` on the client that
`NewClient` built returns nil after exactly n writes, the i-th of which carries the
frame built for the i-th address of the list and has the i-th result of the handle. -/
theorem C8_all_addresses_written (macs : List String) (ifname hostname : String) (xid : Nat)
    (openErr : Option String) (c : Client) (writeErr : Nat → Option String)
    (hc : NewClient macs ifname hostname xid openErr = .ok c)
    (hwf : ∀ m ∈ macs, (ParseMAC m).map List.length = some 6) :
    (sendDiscover writeErr c).outcome = .returned none ∧
    (sendDiscover writeErr c).writes.length = macs.length ∧
    ∀ (i : Nat) (m : String), macs[i]? = some m →
      ∃ f, frameFor c m = some f ∧
        (sendDiscover writeErr c).writes[i]? = some { buf := f, err := writeErr i } := by
  have hmacs : c.macs = macs := by rw [NewClient_eq_ok hc]
  have hall := sendDiscoverLoop_all writeErr c.macs c []
    (by rw [NewClient_eq_ok hc]; simp) (by rw [NewClient_eq_ok hc]; rfl)
    (by rw [NewClient_eq_ok hc]; rfl) (by rw [NewClient_eq_ok hc]; rfl)
    (by rw [hmacs]; exact hwf)
  rw [hmacs] at hall
  unfold sendDiscover
  rw [hmacs]
  refine ⟨hall.1, by simpa using hall.2, ?_⟩
  intro i m hm
  have hi : i < macs.length := by
    by_contra hge
    rw [List.getElem?_eq_none (by omega)] at hm
    cases hm
  have hlen : i < (sendDiscoverLoop writeErr c macs []).writes.length := by
    rw [hall.2]; simpa using hi
  have hget : (sendDiscoverLoop writeErr c macs []).writes[([] : List Write).length + i]? =
      some ((sendDiscoverLoop writeErr c macs []).writes.get ⟨i, hlen⟩) := by
    simp only [List.length_nil, Nat.zero_add]
    exact List.getElem?_eq_getElem hlen
  obtain ⟨m', f, h1, h2, h3⟩ := sendDiscoverLoop_writes_at writeErr c macs c [] i _
    (fun _ => rfl) hget
  rw [hm] at h1
  cases h1
  refine ⟨f, h2, ?_⟩
  rw [List.getElem?_eq_getElem hlen]
  simp only [List.length_nil, Nat.zero_add] at h3
  exact congrArg some h3

/-- Two addresses, the first write failing, by C8: both are written, in order, and
the result is nil. -/
theorem C8_all_addresses_written_witness :
    (NewClient ["aa:aa:aa:aa:aa:aa", "bb:bb:bb:bb:bb:bb"] "eth0" "host" 7 none =
        .ok sampleClient ∧
      ∀ m ∈ ["aa:aa:aa:aa:aa:aa", "bb:bb:bb:bb:bb:bb"],
        (ParseMAC m).map List.length = some 6) ∧
    (sendDiscover (fun k => if k = 0 then some "write failed" else none) sampleClient).outcome =
      .returned none ∧
    (sendDiscover (fun k => if k = 0 then some "write failed" else none)
      sampleClient).writes.length = ["aa:aa:aa:aa:aa:aa", "bb:bb:bb:bb:bb:bb"].length ∧
    (sendDiscover (fun k => if k = 0 then some "write failed" else none) sampleClient).writes =
      [{ buf := sampleFrame macA, err := some "write failed" },
       { buf := sampleFrame macB, err := none }] :=
  ⟨⟨rfl, by decide⟩,
    (C8_all_addresses_written ["aa:aa:aa:aa:aa:aa", "bb:bb:bb:bb:bb:bb"] "eth0" "host" 7 none
      sampleClient (fun k => if k = 0 then some "write failed" else none) rfl (by decide)).1,
    (C8_all_addresses_written ["aa:aa:aa:aa:aa:aa", "bb:bb:bb:bb:bb:bb"] "eth0" "host" 7 none
      sampleClient (fun k => if k = 0 then some "write failed" else none) rfl (by decide)).2.1,
    by decide⟩

/-- C9: every frame that `sendDiscover` writes, at whatever position i, was built for
the i-th address of the list: its Ethernet source and its DHCP client hardware
address are the six bytes of that address, and every other field is the one
`NewClient` set: Ethernet destination ff:ff:ff:ff:ff:ff, ethertype IPv4, IPv4 source
0.0.0.0, destination 255.255.255.255, protocol UDP, TTL 64, UDP source port 68,
destination port 67, DHCP operation Request, hardware type Ethernet, the transaction
id of the client, the same for every frame, and the option list of the client. -/
theorem C9_frame_fields (macs : List String) (ifname hostname : String) (xid : Nat)
    (openErr : Option String) (c : Client) (writeErr : Nat → Option String)
    (i : Nat) (w : Write)
    (hc : NewClient macs ifname hostname xid openErr = .ok c)
    (hw : (sendDiscover writeErr c).writes[i]? = some w) :
    ∃ m addr, macs[i]? = some m ∧ ParseMAC m = some addr ∧ addr.length = 6 ∧
      w.buf.eth.SrcMAC = addr ∧ w.buf.dhcp.ClientHWAddr = addr ∧
      w.buf.eth.DstMAC = [255, 255, 255, 255, 255, 255] ∧
      HardwareAddr.String w.buf.eth.DstMAC = "ff:ff:ff:ff:ff:ff" ∧
      w.buf.eth.EthernetType = EthernetTypeIPv4 ∧
      IP.String w.buf.ip.SrcIP = "0.0.0.0" ∧
      IP.String w.buf.ip.DstIP = "255.255.255.255" ∧
      w.buf.ip.Version = 4 ∧
      w.buf.ip.Protocol = IPProtocolUDP ∧
      w.buf.ip.TTL = 64 ∧
      w.buf.udp.SrcPort = 68 ∧ w.buf.udp.DstPort = 67 ∧
      w.buf.dhcp.Operation = DHCPOpRequest ∧
      w.buf.dhcp.HardwareType = LinkTypeEthernet ∧
      w.buf.dhcp.Xid = c.dhcpLayer.Xid ∧ c.dhcpLayer.Xid = xid % 2 ^ 32 ∧
      w.buf.dhcp.Options = c.dhcpLayer.Options := by
  have hmacs : c.macs = macs := by rw [NewClient_eq_ok hc]
  unfold sendDiscover at hw
  rw [hmacs] at hw
  have hw2 : (sendDiscoverLoop writeErr c macs []).writes[([] : List Write).length + i]? =
      some w := by
    simpa using hw
  obtain ⟨m, f, h1, h2, h3⟩ := sendDiscoverLoop_writes_at writeErr c macs c [] i w
    (fun _ => rfl) hw2
  unfold frameFor at h2
  cases hset : setAddress c m with
  | none => simp [hset] at h2
  | some c1 =>
    simp only [hset] at h2
    cases hser : SerializeLayers c1.ethLayer c1.ipLayer c1.udpLayer c1.dhcpLayer with
    | error e => simp [hser] at h2
    | ok buf =>
      simp only [hser, Option.some.injEq] at h2
      obtain ⟨hbuf, hsrc, _⟩ := SerializeLayers_eq_ok hser
      obtain ⟨e1, e2, e3, e4, e5, e6, e7, e8, e9, o, os, e10, e11⟩ := setAddress_eq_some hset
      have hwbuf : w.buf = ⟨c1.ethLayer, c1.ipLayer, c1.udpLayer, c1.dhcpLayer⟩ := by
        rw [h3, ← h2, hbuf]
      have hparse : ∃ addr, ParseMAC m = some addr := by
        cases hp : ParseMAC m with
        | none => rw [e1, hp] at hsrc; simp at hsrc
        | some addr => exact ⟨addr, rfl⟩
      obtain ⟨addr, haddr⟩ := hparse
      rw [haddr] at e1 e2
      simp only [Option.getD_some] at e1 e2
      have hopt : c1.dhcpLayer.Options = c.dhcpLayer.Options := by
        rw [e11, e10]
        have : o.Data = [DHCPMsgTypeDiscover] := by
          have h0 : c.dhcpLayer.Options[0]? = some o := by rw [e10]; simp
          rw [NewClient_eq_ok hc] at h0
          simp only [List.getElem?_cons_zero, Option.some.injEq] at h0
          rw [← h0]
        rw [← this]
      refine ⟨m, addr, h1, haddr, by rw [← e1]; exact hsrc, ?_, ?_, ?_, ?_, ?_, ?_, ?_, ?_, ?_,
        ?_, ?_, ?_, ?_, ?_, ?_, ?_, ?_⟩
      · rw [hwbuf]; exact e1
      · rw [hwbuf]; exact e2
      · rw [hwbuf]; simp only [e3]; rw [NewClient_eq_ok hc]
      · rw [hwbuf]; simp only [e3]; rw [NewClient_eq_ok hc]
        show HardwareAddr.String [255, 255, 255, 255, 255, 255] = "ff:ff:ff:ff:ff:ff"
        decide
      · rw [hwbuf]; simp only [e4]; rw [NewClient_eq_ok hc]
      · rw [hwbuf]; simp only [e5]; rw [NewClient_eq_ok hc]
        show IP.String (netIPv4 0 0 0 0) = "0.0.0.0"
        decide
      · rw [hwbuf]; simp only [e5]; rw [NewClient_eq_ok hc]
        show IP.String (netIPv4 255 255 255 255) = "255.255.255.255"
        decide
      · rw [hwbuf]; simp only [e5]; rw [NewClient_eq_ok hc]
      · rw [hwbuf]; simp only [e5]; rw [NewClient_eq_ok hc]
      · rw [hwbuf]; simp only [e5]; rw [NewClient_eq_ok hc]
      · rw [hwbuf]; simp only [e6]; rw [NewClient_eq_ok hc]
      · rw [hwbuf]; simp only [e6]; rw [NewClient_eq_ok hc]
      · rw [hwbuf]; simp only [e7]; rw [NewClient_eq_ok hc]
      · rw [hwbuf]; simp only [e8]; rw [NewClient_eq_ok hc]
      · rw [hwbuf]; exact e9
      · rw [NewClient_eq_ok hc]
      · rw [hwbuf]; exact hopt

/-- The second of two addresses, by C9: the frame written second carries
bb:bb:bb:bb:bb:bb and the fields of the template. -/
theorem C9_frame_fields_witness :
    (NewClient ["aa:aa:aa:aa:aa:aa", "bb:bb:bb:bb:bb:bb"] "eth0" "host" 7 none =
        .ok sampleClient ∧
      (sendDiscover (fun _ => none) sampleClient).writes[1]? =
        some { buf := sampleFrame macB, err := none }) ∧
    ∃ m addr, ["aa:aa:aa:aa:aa:aa", "bb:bb:bb:bb:bb:bb"][1]? = some m ∧
      ParseMAC m = some addr ∧ addr.length = 6 ∧
      (sampleFrame macB).eth.SrcMAC = addr ∧ (sampleFrame macB).dhcp.ClientHWAddr = addr ∧
      (sampleFrame macB).eth.DstMAC = [255, 255, 255, 255, 255, 255] :=
  ⟨⟨rfl, by decide⟩,
    let ⟨m, addr, h1, h2, h3, h4, h5, h6, _⟩ :=
      C9_frame_fields ["aa:aa:aa:aa:aa:aa", "bb:bb:bb:bb:bb:bb"] "eth0" "host" 7 none
        sampleClient (fun _ => none) 1 { buf := sampleFrame macB, err := none } rfl (by decide)
    ⟨m, addr, h1, h2, h3, h4, h5, h6⟩⟩

end Macsniffer
